import Mathlib

/-!
Verification development for the PyUMLS_Similarity wrapper
(src/PyUMLS_Similarity.py).

The development shallowly embeds the parts of the class
`PyUMLS_Similarity` that the checked properties speak about:

* the MySQL connection-info validation and command-line argument
  building of `similarity_from_file`, `find_shortest_path_from_file`
  and `find_least_common_subsumer_from_file` (spawning the external
  Perl process is modelled as returning the built argument list in the
  `Except.ok` case, so an `Except.error` result means no process was
  spawned);
* the regular-expression output parsers of `similarity_from_file` and
  `find_shortest_path_from_file` (a small backtracking matcher
  specialised to the token shapes of the patterns actually compiled by
  the source: literals, `\d+`, `\d+\.\d+`, `C\d+`, lazy `.+?` groups
  and the trailing `(?=\n\S|$)` lookahead);
* the pair-file serialisation (`f.write(f"{cui1}<>{cui2}\n")`) and the
  line/`<>` splitting used to read such files back;
* the tabular data model: a pandas `DataFrame` is modelled as a column
  list plus rows of (column, cell) pairs, `pd.merge(..., how='outer')`
  with the `sort=False` default is modelled as: left rows in order,
  each paired with every key-equal right row, right rows whose key
  matches no left row appended afterwards, overlapping non-key columns
  suffixed;
* `combine_similarity_results`, `merge_results`, `run_task`,
  `detect_cui_or_term` and `run_concurrently`.  Since the individual
  task bodies call external processes, the outcome of `run_task` for a
  dispatched task is carried as an explicit `result` field of the task
  record; `print` diagnostics of the dispatcher's exception handler are
  collected into a log list (other debug prints do not affect any
  checked property and are not modelled).

Python cell values (strings, ints, floats, None/NaN) are modelled by
`CellVal`; floats are modelled as exact rationals, which is faithful
here because every float the claims mention arises from `float()` of a
decimal literal, and equal decimal values yield equal IEEE doubles.
-/

/-- Python scalar values that appear as cells of the result
DataFrames: strings, integers, floats (modelled as exact rationals)
and None/NaN. -/
inductive CellVal where
  | str (s : String)
  | int (n : Int)
  | rat (q : ℚ)
  | none
deriving DecidableEq, Repr

/-- Python values that appear inside a task's `arguments` tuple:
strings, tuples, lists and ints (enough structure for the pair lists
and measure lists the source passes around). -/
inductive PyVal where
  | str (s : String)
  | int (n : Int)
  | tuple (xs : List PyVal)
  | list (xs : List PyVal)

/-- Python exceptions raised by the modelled code paths. -/
inductive PyErr where
  | indexError
  | valueError (msg : String)
  | typeError (msg : String)
  | attributeError (attr : String)
  | fileNotFound (msg : String)
deriving DecidableEq, Repr

/-- The five mandatory MySQL connection keys, in the order the source
iterates over them (`required_keys` in `similarity_from_file`,
`find_shortest_path_from_file`,
`find_least_common_subsumer_from_file`). -/
def required_keys : List String :=
  ["database", "username", "password", "hostname", "socket"]

/-- `key not in self.mysql_info or not self.mysql_info[key]`: the key
is absent from the mapping, or maps to a falsy (empty) string. -/
def badKey (info : List (String × String)) (k : String) : Bool :=
  match info.lookup k with
  | Option.none => true
  | Option.some v => v = ""

/-- The `for key in required_keys: if ...: raise ValueError(...)` loop:
returns the first required key that is missing or empty, if any. -/
def firstBadKey (info : List (String × String)) : List String → Option String
  | [] => Option.none
  | k :: ks => if badKey info k then Option.some k else firstBadKey info ks

/-- Validation of `self.mysql_info` as performed (identically) at the
top of the three `*_from_file` methods. -/
def validate_mysql_info (info : List (String × String)) : Option String :=
  firstBadKey info required_keys

/-- The ValueError message raised for a missing/empty key. -/
def mysqlErrMsg (k : String) : String :=
  "MySQL information must include " ++ k ++ "."

/-- Look a key up in the connection mapping, defaulting to `""` (only
used after validation has established the key is present). -/
def infoVal (info : List (String × String)) (k : String) : String :=
  (info.lookup k).getD ""

/-- Render the parameter dictionary into command-line tokens, as the
source's loop does: `key=value` when the value is non-empty, bare
`key` otherwise. -/
def renderParams (params : List (String × String)) : List String :=
  params.flatMap (fun p => if p.2 ≠ "" then [p.1 ++ "=" ++ p.2] else [p.1])

/-- `similarity_from_file` up to and including the spawn of the Perl
process (lines 194-243).  File-system facts (`os.path.isfile`) are
passed in as booleans.  The `Except.ok` payload is the `process_args`
list handed to `subprocess.Popen`; returning `Except.error` means the
method raised before any child process was spawned. -/
def similarity_from_file
    (in_file_exists script_exists perl_exists : Bool)
    (mysql_info : List (String × String))
    (similarity_measure : String) (precision : Nat) (forcerun : Bool)
    (in_file cwd perl_bin_path : String) : Except PyErr (List String) :=
  if ¬ in_file_exists then
    Except.error (PyErr.fileNotFound
      ("The input file " ++ in_file ++ " does not exist."))
  else
    match validate_mysql_info mysql_info with
    | Option.some k => Except.error (PyErr.valueError (mysqlErrMsg k))
    | Option.none =>
      let params : List (String × String) :=
        [("--database", infoVal mysql_info "database"),
         ("--username", infoVal mysql_info "username"),
         ("--password", infoVal mysql_info "password"),
         ("--hostname", infoVal mysql_info "hostname"),
         ("--socket", infoVal mysql_info "socket"),
         ("--measure", similarity_measure),
         ("--precision", toString precision)]
        ++ (if forcerun then [("--forcerun", "")] else [])
        ++ [("--infile", in_file)]
      let script := cwd ++ "\\umls-similarity.pl"
      if ¬ script_exists then
        Except.error (PyErr.fileNotFound
          ("The file " ++ script ++ " does not exist."))
      else if ¬ perl_exists then
        Except.error (PyErr.fileNotFound
          ("The Perl executable " ++ perl_bin_path ++ " does not exist."))
      else
        Except.ok ([perl_bin_path, script] ++ renderParams params)

/-- `find_shortest_path_from_file` up to the per-pair spawning loop
(lines 340-375).  The `Except.ok` payload is the list of
`process_args` lists, one per pair. -/
def find_shortest_path_from_file
    (script_exists perl_exists : Bool)
    (mysql_info : List (String × String)) (forcerun : Bool)
    (pairs : List (String × String))
    (cwd perl_bin_path : String) : Except PyErr (List (List String)) :=
  match validate_mysql_info mysql_info with
  | Option.some k => Except.error (PyErr.valueError (mysqlErrMsg k))
  | Option.none =>
    let params : List (String × String) :=
      [("--database", infoVal mysql_info "database"),
       ("--username", infoVal mysql_info "username"),
       ("--password", infoVal mysql_info "password"),
       ("--hostname", infoVal mysql_info "hostname"),
       ("--socket", infoVal mysql_info "socket"),
       ("--length", "")]
      ++ (if forcerun then [("--forcerun", "")] else [])
    let script := cwd ++ "\\findShortestPath.pl"
    if ¬ script_exists then
      Except.error (PyErr.fileNotFound
        ("The file " ++ script ++ " does not exist."))
    else if ¬ perl_exists then
      Except.error (PyErr.fileNotFound
        ("The Perl executable " ++ perl_bin_path ++ " does not exist."))
    else
      Except.ok (pairs.map (fun p =>
        [perl_bin_path, script] ++ renderParams params ++ [p.1, p.2]))

/-- `find_least_common_subsumer_from_file` up to the spawn
(lines 524-572). -/
def find_least_common_subsumer_from_file
    (in_file_exists script_exists perl_exists : Bool)
    (mysql_info : List (String × String)) (forcerun : Bool)
    (in_file cwd perl_bin_path : String) : Except PyErr (List String) :=
  if ¬ in_file_exists then
    Except.error (PyErr.fileNotFound
      ("The input file " ++ in_file ++ " does not exist."))
  else
    match validate_mysql_info mysql_info with
    | Option.some k => Except.error (PyErr.valueError (mysqlErrMsg k))
    | Option.none =>
      let params : List (String × String) :=
        [("--database", infoVal mysql_info "database"),
         ("--username", infoVal mysql_info "username"),
         ("--password", infoVal mysql_info "password"),
         ("--hostname", infoVal mysql_info "hostname"),
         ("--socket", infoVal mysql_info "socket"),
         ("--depth", "")]
        ++ (if forcerun then [("--forcerun", "")] else [])
        ++ [("--infile", in_file)]
      let script := cwd ++ "\\findLeastCommonSubsumer.pl"
      if ¬ script_exists then
        Except.error (PyErr.fileNotFound
          ("The file " ++ script ++ " does not exist."))
      else if ¬ perl_exists then
        Except.error (PyErr.fileNotFound
          ("The Perl executable " ++ perl_bin_path ++ " does not exist."))
      else
        Except.ok ([perl_bin_path, script] ++ renderParams params)

lemma firstBadKey_eq_of_unique (info : List (String × String))
    (k : String) :
    ∀ ks : List String, k ∈ ks → badKey info k = true →
      (∀ k' ∈ ks, badKey info k' = true → k' = k) →
      firstBadKey info ks = Option.some k := by
  intro ks
  induction ks with
  | nil => intro h; cases h
  | cons a t ih =>
    intro hmem hbad huniq
    by_cases ha : badKey info a = true
    · have : a = k := huniq a (List.mem_cons_self a t) ha
      subst this
      simp [firstBadKey, ha]
    · have hk : k ∈ t := by
        rcases List.mem_cons.mp hmem with h | h
        · exact absurd (h ▸ hbad) ha
        · exact h
      have : firstBadKey info t = Option.some k :=
        ih hk hbad (fun k' hk' hb => huniq k' (List.mem_cons_of_mem a hk') hb)
      simp [firstBadKey, ha, this]

/-- C2: if exactly one of the five required connection keys is absent
or empty, then each of the three external-tool operations raises
`ValueError("MySQL information must include <key>.")` naming that key,
and (since the error is returned instead of the built argument list)
no child process is spawned.  The input file is assumed to exist for
the two file-based operations, whose `os.path.isfile` check precedes
the validation. -/
theorem config_error_names_missing_key
    (mysql_info : List (String × String)) (k : String)
    (hk : k ∈ required_keys) (hbad : badKey mysql_info k = true)
    (huniq : ∀ k' ∈ required_keys, badKey mysql_info k' = true → k' = k)
    (measure : String) (precision : Nat) (forcerun : Bool)
    (in_file cwd perl : String) (pairs : List (String × String)) :
    similarity_from_file true true true mysql_info measure precision
        forcerun in_file cwd perl
      = Except.error (PyErr.valueError (mysqlErrMsg k)) ∧
    find_shortest_path_from_file true true mysql_info forcerun pairs
        cwd perl
      = Except.error (PyErr.valueError (mysqlErrMsg k)) ∧
    find_least_common_subsumer_from_file true true true mysql_info
        forcerun in_file cwd perl
      = Except.error (PyErr.valueError (mysqlErrMsg k)) := by
  have hval : validate_mysql_info mysql_info = Option.some k :=
    firstBadKey_eq_of_unique mysql_info k required_keys hk hbad huniq
  refine ⟨?_, ?_, ?_⟩
  · simp [similarity_from_file, hval]
  · simp [find_shortest_path_from_file, hval]
  · simp [find_least_common_subsumer_from_file, hval]

/-- Witness for C2 at a concrete configuration missing only
`password`. -/
theorem config_error_names_missing_key_witness :
    ("password" ∈ required_keys ∧
      badKey [("database", "umls"), ("username", "u"),
        ("hostname", "localhost"), ("socket", "/tmp/mysql.sock")]
        "password" = true) ∧
    similarity_from_file true true true
        [("database", "umls"), ("username", "u"),
         ("hostname", "localhost"), ("socket", "/tmp/mysql.sock")]
        "lch" 4 true "in.txt" "wd" "perl.exe"
      = Except.error (PyErr.valueError (mysqlErrMsg "password")) := by
  refine ⟨⟨by decide, by decide⟩, ?_⟩
  exact (config_error_names_missing_key
    [("database", "umls"), ("username", "u"),
     ("hostname", "localhost"), ("socket", "/tmp/mysql.sock")]
    "password" (by decide) (by decide) (by decide)
    "lch" 4 true "in.txt" "wd" "perl.exe" []).1

/-- The call a dispatched task resolves to in `run_task` (lines
718-728).  `similarityCall` carries the task's `arguments` tuple
unpacked into separate positional arguments (`self.similarity(*arguments)`,
so `cui_pairs` is bound to the first element); `shortestPathCall` and
`lcsCall` carry the single value passed as the whole `pairs` /
`cui_pairs` parameter (`self.find_shortest_path(arguments)`:
the un-unpacked tuple itself). -/
inductive Invocation where
  | similarityCall (positional : List PyVal)
  | shortestPathCall (pairs : PyVal)
  | lcsCall (cui_pairs : PyVal)

/-- A task dictionary as consumed by `run_task`: the `'function'`
string and the `'arguments'` tuple (as its list of elements). -/
structure TaskSpec where
  function : String
  arguments : List PyVal

/-- `run_task` (lines 704-728): dispatch on the function-name string. -/
def run_task (t : TaskSpec) : Except PyErr Invocation :=
  if t.function = "similarity" then
    Except.ok (Invocation.similarityCall t.arguments)
  else if t.function = "shortest_path" then
    Except.ok (Invocation.shortestPathCall (PyVal.tuple t.arguments))
  else if t.function = "lcs" then
    Except.ok (Invocation.lcsCall (PyVal.tuple t.arguments))
  else
    Except.error (PyErr.valueError ("Unknown function: " ++ t.function))

/-- The value bound to the pair-list parameter of the invoked method:
`similarity`'s first positional parameter `cui_pairs`, or the single
`pairs` / `cui_pairs` argument of the other two methods. -/
def pairsParamOf : Invocation → Option PyVal
  | Invocation.similarityCall xs => xs.head?
  | Invocation.shortestPathCall v => Option.some v
  | Invocation.lcsCall v => Option.some v

lemma pyval_tuple_singleton_ne (p : PyVal) : PyVal.tuple [p] ≠ p := by
  intro h
  have hs := congrArg sizeOf h
  simp at hs
  omega

/-- C9: `run_task` unpacks the `arguments` tuple into separate
positional arguments only for `'similarity'`; for `'shortest_path'`
(and `'lcs'`) the whole tuple is passed as the single pairs argument,
so a task `{'function': 'shortest_path', 'arguments': (pairs,)}`
invokes `find_shortest_path` with the one-element tuple `(pairs,)` as
its pair list, not with `pairs` itself. -/
theorem run_task_unpacks_only_similarity (p q : PyVal) :
    run_task ⟨"shortest_path", [p]⟩
        = Except.ok (Invocation.shortestPathCall (PyVal.tuple [p])) ∧
    pairsParamOf (Invocation.shortestPathCall (PyVal.tuple [p]))
        = Option.some (PyVal.tuple [p]) ∧
    PyVal.tuple [p] ≠ p ∧
    run_task ⟨"lcs", [p]⟩
        = Except.ok (Invocation.lcsCall (PyVal.tuple [p])) ∧
    run_task ⟨"similarity", [p, q]⟩
        = Except.ok (Invocation.similarityCall [p, q]) ∧
    pairsParamOf (Invocation.similarityCall [p, q]) = Option.some p := by
  refine ⟨rfl, rfl, pyval_tuple_singleton_ne p, rfl, rfl, rfl⟩

/-- A pandas DataFrame: ordered column labels plus rows, each row an
ordered association list from column label to cell value (a missing
value is stored as `CellVal.none`, i.e. NaN). -/
structure DF where
  cols : List String
  rows : List (List (String × CellVal))
deriving DecidableEq, Repr

/-- `pd.DataFrame()` with no data. -/
def emptyDF : DF := ⟨[], []⟩

/-- A row of a DataFrame. -/
abbrev DFRow := List (String × CellVal)

/-- `df.empty`: true when either axis has length zero. -/
def dfEmpty (df : DF) : Bool := df.rows.isEmpty || df.cols.isEmpty

/-- Python `s.endswith(suffix)`. -/
def endsWithStr (s suffix : String) : Bool :=
  suffix.data.isSuffixOf s.data

/-- The tuple of values a row takes on the join columns `on`
(`Option.none` would mean the column is absent; the source only ever
merges frames that carry their join columns). -/
def rowKey (onc : List String) (row : DFRow) : List (Option CellVal) :=
  onc.map (fun c => row.lookup c)

/-- The overlapping non-key columns of the two frames being merged
(the ones pandas disambiguates with the merge suffixes). -/
def mergeOverlap (l r : DF) (onc : List String) : List String :=
  r.cols.filter (fun c => decide (c ∈ l.cols) && !(decide (c ∈ onc)))

/-- Apply a merge suffix to the overlapping column names of one side. -/
def renSuffix (overlap : List String) (suf : String) (df : DF) : DF :=
  ⟨df.cols.map (fun c => if c ∈ overlap then c ++ suf else c),
   df.rows.map (fun row => row.map (fun p =>
     if p.1 ∈ overlap then (p.1 ++ suf, p.2) else p))⟩

/-- The right frame's non-key columns (after suffixing). -/
def rightDataCols (rr : DF) (onc : List String) : List String :=
  rr.cols.filter (fun c => !(decide (c ∈ onc)))

/-- Left rows of an outer merge: each left row paired with every
key-equal right row, padded with NaN when none matches. -/
def mergedLeftRows (lr rr : DF) (onc : List String)
    (rdata : List String) : List DFRow :=
  lr.rows.flatMap (fun lrow =>
    let ms := rr.rows.filter (fun rrow =>
      decide (rowKey onc rrow = rowKey onc lrow))
    if ms.isEmpty then
      [lrow ++ rdata.map (fun c => (c, CellVal.none))]
    else
      ms.map (fun rrow =>
        lrow ++ rdata.map (fun c =>
          (c, ((rrow.lookup c).getD CellVal.none)))))

/-- Right rows of an outer merge whose key matches no left row. -/
def mergedRightRows (lr rr : DF) (onc : List String)
    (rdata : List String) : List DFRow :=
  (rr.rows.filter (fun rrow =>
      lr.rows.all (fun lrow =>
        !(decide (rowKey onc rrow = rowKey onc lrow))))).map
    (fun rrow =>
      lr.cols.map (fun c =>
        (c, if c ∈ onc then (rrow.lookup c).getD CellVal.none
            else CellVal.none))
      ++ rdata.map (fun c => (c, (rrow.lookup c).getD CellVal.none)))

/-- `pd.merge(l, r, on := onc, how := 'outer', suffixes := (lsuf, rsuf))`
with pandas' default `sort=False`: overlapping non-key columns are
suffixed on both sides; result columns are the left columns followed
by the right non-key columns; rows are the matched/padded left rows
followed by the unmatched right rows. -/
def pdMergeOuter (l r : DF) (onc : List String) (lsuf rsuf : String) : DF :=
  let overlap := mergeOverlap l r onc
  let lr := renSuffix overlap lsuf l
  let rr := renSuffix overlap rsuf r
  let rdata := rightDataCols rr onc
  ⟨lr.cols ++ rdata,
   mergedLeftRows lr rr onc rdata ++ mergedRightRows lr rr onc rdata⟩

/-- `df.drop(columns = cs, errors='ignore')`. -/
def dropColumns (cs : List String) (df : DF) : DF :=
  ⟨df.cols.filter (fun c => !(decide (c ∈ cs))),
   df.rows.map (fun row => row.filter (fun p => !(decide (p.1 ∈ cs))))⟩

/-- `final_df.loc[:, ~final_df.columns.str.endswith(suffix)]`. -/
def dropSuffixCols (suffix : String) (df : DF) : DF :=
  ⟨df.cols.filter (fun c => !(endsWithStr c suffix)),
   df.rows.map (fun row => row.filter (fun p => !(endsWithStr p.1 suffix)))⟩

/-- The identity columns `merge_results` joins on. -/
def mergeOnCols (use_cuis : Bool) : List String :=
  if use_cuis then ["CUI_1", "CUI_2"] else ["Term_1", "Term_2"]

/-- The identity columns `merge_results` drops from later frames. -/
def nonMergeCols (use_cuis : Bool) : List String :=
  if use_cuis then ["Term_1", "Term_2"] else ["CUI_1", "CUI_2"]

/-- One iteration of the `for df in dataframes[1:]` loop of
`merge_results` (lines 691-698): drop the non-merge identity columns
from the later frame, outer-merge on the identity columns with
suffixes `('', '_drop')`, then drop the `_drop` columns. -/
def mergeStep (use_cuis : Bool) (final_df df : DF) : DF :=
  dropSuffixCols "_drop"
    (pdMergeOuter final_df (dropColumns (nonMergeCols use_cuis) df)
      (mergeOnCols use_cuis) "" "_drop")

/-- `merge_results` (lines 663-702). -/
def merge_results (results : List (String × DF)) (use_cuis : Bool) : DF :=
  let dataframes : List DF :=
    ["similarity", "shortest_path", "lcs"].filterMap
      (fun k => results.lookup k)
  match dataframes with
  | [] => emptyDF
  | first :: rest => rest.foldl (mergeStep use_cuis) first

/-- The nested helper `is_cui` of `detect_cui_or_term` (lines 87-89):
`isinstance(value, str) and value.startswith('C') and value[1:].isdigit()`. -/
def detectIsCui : PyVal → Bool
  | PyVal.str s =>
    match s.data with
    | 'C' :: rest => !rest.isEmpty && rest.all Char.isDigit
    | _ => false
  | _ => false

/-- `detect_cui_or_term` (lines 77-93): `pair1, pair2 = cui_pairs[0]`
then `is_cui(pair1) and is_cui(pair2)`.  Indexing an empty sequence
raises IndexError; unpacking a non-pair raises ValueError. -/
def detect_cui_or_term (cui_pairs : PyVal) : Except PyErr Bool :=
  match cui_pairs with
  | PyVal.list [] => Except.error PyErr.indexError
  | PyVal.tuple [] => Except.error PyErr.indexError
  | PyVal.list (p :: _) =>
    match p with
    | PyVal.tuple [a, b] => Except.ok (detectIsCui a && detectIsCui b)
    | PyVal.list [a, b] => Except.ok (detectIsCui a && detectIsCui b)
    | _ => Except.error (PyErr.valueError "cannot unpack pair")
  | PyVal.tuple (p :: _) =>
    match p with
    | PyVal.tuple [a, b] => Except.ok (detectIsCui a && detectIsCui b)
    | PyVal.list [a, b] => Except.ok (detectIsCui a && detectIsCui b)
    | _ => Except.error (PyErr.valueError "cannot unpack pair")
  | _ => Except.error (PyErr.typeError "object is not subscriptable")

/-- A task as dispatched by `run_concurrently`: the `'function'` name,
the `'arguments'` tuple, and the outcome of its `run_task` execution
(the task bodies invoke external processes, so their outcome is an
input of the model: `Except.ok` a result DataFrame, or `Except.error`
the exception's message). -/
structure TaskRun where
  function : String
  arguments : List PyVal
  result : Except String DF

/-- Python dict assignment `d[k] = v` preserving insertion order. -/
def dictInsert (d : List (String × DF)) (k : String) (v : DF) :
    List (String × DF) :=
  if d.any (fun p => p.1 == k) then
    d.map (fun p => if p.1 = k then (k, v) else p)
  else d ++ [(k, v)]

/-- The diagnostic printed by `run_concurrently`'s exception handler. -/
def taskFailureMsg (name e : String) : String :=
  "Task " ++ name ++ " generated an exception: " ++ e

/-- The `for future in as_completed(...)` collection loop of
`run_concurrently` (lines 650-657), modelled in task order: successful
results are stored in the results dict keyed by function name, a
failing task contributes its diagnostic to the log instead and the
loop continues with the remaining tasks. -/
def collectResults (tasks : List TaskRun) :
    List String × List (String × DF) :=
  tasks.foldl (fun acc task =>
    match task.result with
    | Except.ok df => (acc.1, dictInsert acc.2 task.function df)
    | Except.error e => (acc.1 ++ [taskFailureMsg task.function e], acc.2))
    ([], [])

/-- `run_concurrently` (lines 626-661): mode detection from the first
task's first argument (`tasks[0]['arguments'][0]`), then dispatch of
every task, then `merge_results`.  The returned pair is the list of
exception diagnostics printed and the merged DataFrame. -/
def run_concurrently (tasks : List TaskRun) :
    Except PyErr (List String × DF) :=
  match tasks with
  | [] => Except.error PyErr.indexError
  | t :: _ =>
    match t.arguments with
    | [] => Except.error PyErr.indexError
    | a :: _ =>
      match detect_cui_or_term a with
      | Except.error e => Except.error e
      | Except.ok use_cuis =>
        let lr := collectResults tasks
        Except.ok (lr.1, merge_results lr.2 use_cuis)

/-- C10: `run_concurrently` requires a non-empty task list whose first
task carries a non-empty pair list as its first argument: on an empty
task list, or when the first task's first argument is an empty list,
it raises IndexError during mode detection — the result does not
depend on any task's dispatch outcome, i.e. no task is dispatched. -/
theorem run_concurrently_empty_raises_index_error :
    run_concurrently [] = Except.error PyErr.indexError ∧
    (∀ (t : TaskRun) (ts : List TaskRun) (rest : List PyVal),
      t.arguments = PyVal.list [] :: rest →
      run_concurrently (t :: ts) = Except.error PyErr.indexError) := by
  constructor
  · rfl
  · intro t ts rest h
    simp [run_concurrently, h, detect_cui_or_term]

/-- Witness for C10's second conjunct at a concrete task list. -/
theorem run_concurrently_empty_raises_index_error_witness :
    (⟨"similarity", [PyVal.list [], PyVal.list [PyVal.str "lch"]],
        Except.ok emptyDF⟩ : TaskRun).arguments
      = PyVal.list [] :: [PyVal.list [PyVal.str "lch"]] ∧
    run_concurrently
        [⟨"similarity", [PyVal.list [], PyVal.list [PyVal.str "lch"]],
          Except.ok emptyDF⟩]
      = Except.error PyErr.indexError := by
  refine ⟨rfl, ?_⟩
  exact run_concurrently_empty_raises_index_error.2
    ⟨"similarity", [PyVal.list [], PyVal.list [PyVal.str "lch"]],
      Except.ok emptyDF⟩ [] [PyVal.list [PyVal.str "lch"]] rfl

/-- Token shapes occurring in the regular expressions compiled by the
source: a literal, `(\d+)`, `(\d+\.\d+)`, `(C\d+)`, a lazy `(.+?)`
group (whose extent is the shortest making the remaining tokens
match, as Python's backtracking engine computes it), the final
`(.+?)(?=\n\S|$)` path group, `\s*`, and `.` (any character except a
newline, uncaptured). -/
inductive Tok where
  | lit (cs : List Char)
  | digitsCap
  | numCap
  | cuiCap
  | lazyCap
  | pathCap
  | ws
  | anyChar

/-- Match a literal: returns the remaining input on success. -/
def chompLit : List Char → List Char → Option (List Char)
  | [], s => Option.some s
  | _ :: _, [] => Option.none
  | c :: cs, a :: s => if a = c then chompLit cs s else Option.none

/-- The lookahead `(?=\n\S|$)` of the shortest-path pattern: end of
input, a final newline (`$` matches before a trailing newline), or a
newline followed by a non-whitespace character. -/
def pathStop : List Char → Bool
  | [] => true
  | ['\n'] => true
  | '\n' :: c :: _ => !c.isWhitespace
  | _ => false

/-- The lazy scan of `(?P<path>.+?)(?=\n\S|$)`: consume at least one
non-newline character and stop at the first position where the
lookahead holds. -/
def pathScan : List Char → List Char → Option (List Char × List Char)
  | acc, [] => if acc.isEmpty then Option.none else Option.some (acc, [])
  | acc, c :: r =>
    if !acc.isEmpty && pathStop (c :: r) then Option.some (acc, c :: r)
    else if c = '\n' then Option.none
    else pathScan (acc ++ [c]) r

/-- Lazy `(.+?)` group: try the continuation `k` after each additional
consumed character (newlines are not matched by `.`), keeping the
shortest successful extent. -/
def lazyRun (k : List Char → Option (List (List Char) × List Char)) :
    List Char → List Char → Option (List (List Char) × List Char)
  | _, [] => Option.none
  | acc, c :: r =>
    if c = '\n' then Option.none
    else
      match k r with
      | Option.some (cs, rest) => Option.some ((acc ++ [c]) :: cs, rest)
      | Option.none => lazyRun k (acc ++ [c]) r

/-- Match a token sequence at the start of the input, returning the
captures in order and the remaining input. -/
def matchToks : List Tok → List Char → Option (List (List Char) × List Char)
  | [], s => Option.some ([], s)
  | Tok.lit l :: ts, s =>
    match chompLit l s with
    | Option.some r => matchToks ts r
    | Option.none => Option.none
  | Tok.digitsCap :: ts, s =>
    let ds := s.takeWhile Char.isDigit
    if ds.isEmpty then Option.none
    else
      (matchToks ts (s.dropWhile Char.isDigit)).map
        (fun pr => (ds :: pr.1, pr.2))
  | Tok.numCap :: ts, s =>
    let d1 := s.takeWhile Char.isDigit
    if d1.isEmpty then Option.none
    else
      match s.dropWhile Char.isDigit with
      | '.' :: r2 =>
        let d2 := r2.takeWhile Char.isDigit
        if d2.isEmpty then Option.none
        else
          (matchToks ts (r2.dropWhile Char.isDigit)).map
            (fun pr => ((d1 ++ '.' :: d2) :: pr.1, pr.2))
      | _ => Option.none
  | Tok.cuiCap :: ts, s =>
    match s with
    | 'C' :: s2 =>
      let ds := s2.takeWhile Char.isDigit
      if ds.isEmpty then Option.none
      else
        (matchToks ts (s2.dropWhile Char.isDigit)).map
          (fun pr => (('C' :: ds) :: pr.1, pr.2))
    | _ => Option.none
  | Tok.lazyCap :: ts, s => lazyRun (fun r => matchToks ts r) [] s
  | Tok.pathCap :: ts, s =>
    match pathScan [] s with
    | Option.some (cap, r) =>
      (matchToks ts r).map (fun pr => (cap :: pr.1, pr.2))
    | Option.none => Option.none
  | Tok.ws :: ts, s => matchToks ts (s.dropWhile Char.isWhitespace)
  | Tok.anyChar :: ts, s =>
    match s with
    | c :: r => if c = '\n' then Option.none else matchToks ts r
    | [] => Option.none

/-- Try the pattern alternatives in order (regex `|`), reporting the
index of the matching alternative. -/
def tryAltsFrom (i : Nat) :
    List (List Tok) → List Char → Option (Nat × List (List Char) × List Char)
  | [], _ => Option.none
  | alt :: alts, s =>
    match matchToks alt s with
    | Option.some (caps, rest) => Option.some (i, caps, rest)
    | Option.none => tryAltsFrom (i + 1) alts s

/-- Try all alternatives at the current position. -/
def tryAlts (alts : List (List Tok)) (s : List Char) :
    Option (Nat × List (List Char) × List Char) :=
  tryAltsFrom 0 alts s

/-- `re.finditer`: scan left to right, emitting non-overlapping
matches and resuming after each match (every pattern here consumes at
least one character, so the fuel `s.length + 1` suffices). -/
def finditerAux (alts : List (List Tok)) :
    Nat → List Char → List (Nat × List (List Char))
  | 0, _ => []
  | Nat.succ n, s =>
    match tryAlts alts s with
    | Option.some (i, caps, rest) => (i, caps) :: finditerAux alts n rest
    | Option.none =>
      match s with
      | [] => []
      | _ :: s2 => finditerAux alts n s2

/-- All matches of the alternatives in the input. -/
def finditer (alts : List (List Tok)) (s : List Char) :
    List (Nat × List (List Char)) :=
  finditerAux alts (s.length + 1) s

/-- The similarity pattern for CUI-mode input (lines 261-265):
`(?P<similarity>\d+\.\d+)<>(?P<cui1>C\d+)\((?P<term1>.+?)\)<>`
`(?P<cui2>C\d+)\((?P<term2>.+?)\)`. -/
def simCuiToks : List Tok :=
  [Tok.numCap, Tok.lit "<>".data, Tok.cuiCap, Tok.lit "(".data,
   Tok.lazyCap, Tok.lit ")<>".data, Tok.cuiCap, Tok.lit "(".data,
   Tok.lazyCap, Tok.lit ")".data]

/-- The similarity pattern for term-mode input (lines 268-272):
`(?P<similarity>\d+\.\d+)<>(?P<term1>.+?)\((?P<cui1>C\d+)\)<>`
`(?P<term2>.+?)\((?P<cui2>C\d+)\)`. -/
def simTermToks : List Tok :=
  [Tok.numCap, Tok.lit "<>".data, Tok.lazyCap, Tok.lit "(".data,
   Tok.cuiCap, Tok.lit ")<>".data, Tok.lazyCap, Tok.lit "(".data,
   Tok.cuiCap, Tok.lit ")".data]

/-- Value of a digit character. -/
def digitVal (c : Char) : Nat := c.toNat - '0'.toNat

/-- Natural number denoted by a digit string. -/
def digitsToNat (cs : List Char) : Nat :=
  cs.foldl (fun a c => a * 10 + digitVal c) 0

/-- Python `float()` applied to a matched `\d+\.\d+` literal, modelled
as the exact rational value of the decimal string (decimal literals of
equal value convert to equal IEEE doubles, so rational equality is
faithful for the comparisons made here). -/
def decimalVal (cs : List Char) : ℚ :=
  let d1 := cs.takeWhile Char.isDigit
  match cs.dropWhile Char.isDigit with
  | '.' :: d2 => (digitsToNat d1 : ℚ) + (digitsToNat d2 : ℚ) / (10 ^ d2.length : ℚ)
  | _ => (digitsToNat d1 : ℚ)

/-- Build one similarity result record (lines 277-289) from a match's
captures (capture order follows the group order of the pattern in
force). -/
def buildSimRecord (measure : String) (input_is_cui : Bool)
    (m : Nat × List (List Char)) : Option DFRow :=
  match input_is_cui, m.2 with
  | true, [sim, c1, t1, c2, t2] =>
    Option.some
      [("Term_1", CellVal.str ⟨t1⟩), ("CUI_1", CellVal.str ⟨c1⟩),
       ("Term_2", CellVal.str ⟨t2⟩), ("CUI_2", CellVal.str ⟨c2⟩),
       (measure, CellVal.rat (decimalVal sim))]
  | false, [sim, t1, c1, t2, c2] =>
    Option.some
      [("Term_1", CellVal.str ⟨t1⟩), ("CUI_1", CellVal.str ⟨c1⟩),
       ("Term_2", CellVal.str ⟨t2⟩), ("CUI_2", CellVal.str ⟨c2⟩),
       (measure, CellVal.rat (decimalVal sim))]
  | _, _ => Option.none

/-- The output-parsing part of `similarity_from_file` (lines 259-292):
choose the CUI or term pattern, find all matches in the decoded
standard output and build the result records. -/
def similarity_parse (input_is_cui : Bool) (measure : String)
    (output : String) : List DFRow :=
  let alts := if input_is_cui then [simCuiToks] else [simTermToks]
  (finditer alts output.data).filterMap (buildSimRecord measure input_is_cui)

/-- C4: on the output text `0.8000<>C0001234(Heart)<>C0005678(Lung)`
with measure `lch`, the CUI-mode similarity parser produces exactly
one record, with Term_1 = Heart, CUI_1 = C0001234, Term_2 = Lung,
CUI_2 = C0005678, and the `lch` column equal to the float 0.8. -/
theorem similarity_parse_cui_example :
    similarity_parse true "lch" "0.8000<>C0001234(Heart)<>C0005678(Lung)"
      = [[("Term_1", CellVal.str "Heart"),
          ("CUI_1", CellVal.str "C0001234"),
          ("Term_2", CellVal.str "Lung"),
          ("CUI_2", CellVal.str "C0005678"),
          ("lch", CellVal.rat 0.8)]] := by
  have h : decimalVal "0.8000".data = (0.8 : ℚ) := by
    have h1 : decimalVal "0.8000".data
        = ((0 : ℕ) : ℚ) + ((8000 : ℕ) : ℚ) / ((10 : ℚ) ^ (4 : ℕ)) := rfl
    rw [h1]; norm_num
  rw [← h]
  rfl

/-- The static method `is_cui` (lines 73-75):
`re.match(r"C\d+", input_str)` — the string starts with `C` followed
by at least one digit. -/
def is_cui (s : String) : Bool :=
  match s.data with
  | 'C' :: c :: _ => c.isDigit
  | _ => false

/-- First alternative of both shortest-path patterns (lines 400-408):
`The shortest path \(length: (?P<length>\d+)\) between (?P<term1>.+?)`
` \((?P<cui1>C\d+)\) and (?P<term2>.+?) \((?P<cui2>C\d+)\):\s*=> `
`(?P<path>.+?)(?=\n\S|$)`. -/
def spPathToks : List Tok :=
  [Tok.lit "The shortest path (length: ".data, Tok.digitsCap,
   Tok.lit ") between ".data, Tok.lazyCap, Tok.lit " (".data, Tok.cuiCap,
   Tok.lit ") and ".data, Tok.lazyCap, Tok.lit " (".data, Tok.cuiCap,
   Tok.lit "):".data, Tok.ws, Tok.lit "=> ".data, Tok.pathCap]

/-- Second alternative of the CUI-mode shortest-path pattern:
`There is not a path between (?P<no_path_cui1>C\d+) and `
`(?P<no_path_cui2>C\d+) given the current view of the UMLS.`
(the final `.` is the any-character metacharacter). -/
def spNoPathCuiToks : List Tok :=
  [Tok.lit "There is not a path between ".data, Tok.cuiCap,
   Tok.lit " and ".data, Tok.cuiCap,
   Tok.lit " given the current view of the UMLS".data, Tok.anyChar]

/-- Second alternative of the term-mode shortest-path pattern:
`There is not a path between (?P<no_path_term1>.+?) and `
`(?P<no_path_term2>.+?)` (the final lazy group, having no following
context, matches exactly one character). -/
def spNoPathTermToks : List Tok :=
  [Tok.lit "There is not a path between ".data, Tok.lazyCap,
   Tok.lit " and ".data, Tok.lazyCap]

/-- The node pattern `(C\d+) \((.+?)\)` used by `re.findall` on the
matched path text (lines 422 and 451). -/
def pathNodeToks : List Tok :=
  [Tok.cuiCap, Tok.lit " (".data, Tok.lazyCap, Tok.lit ")".data]

/-- `path_terms = re.findall(r"(C\d+) \((.+?)\)", path)` followed by
`" => ".join([f"{cui} ({term})" for cui, term in path_terms])`. -/
def renderPathString (path : List Char) : String :=
  String.intercalate " => "
    ((finditer [pathNodeToks] path).filterMap (fun m =>
      match m.2 with
      | [cui, term] =>
        Option.some ((⟨cui⟩ : String) ++ " (" ++ (⟨term⟩ : String) ++ ")")
      | _ => Option.none))

/-- Build one CUI-mode shortest-path record (lines 414-442): a path
match stores the captured length digits (a string) and the re-rendered
path; a no-path match stores the sentinel strings, except that for a
pair with equal CUIs the length is the integer 0 and the path is the
CUI itself. -/
def buildSPRecordCui (m : Nat × List (List Char)) : Option DFRow :=
  match m with
  | (0, [len, t1, c1, t2, c2, path]) =>
    Option.some
      [("Term_1", CellVal.str ⟨t1⟩), ("CUI_1", CellVal.str ⟨c1⟩),
       ("Term_2", CellVal.str ⟨t2⟩), ("CUI_2", CellVal.str ⟨c2⟩),
       ("Length", CellVal.str ⟨len⟩),
       ("Path", CellVal.str (renderPathString path))]
  | (1, [c1, c2]) =>
    Option.some
      [("Term_1", CellVal.none), ("CUI_1", CellVal.str ⟨c1⟩),
       ("Term_2", CellVal.none), ("CUI_2", CellVal.str ⟨c2⟩),
       ("Length", if (⟨c1⟩ : String) ≠ (⟨c2⟩ : String)
                  then CellVal.str "No path found" else CellVal.int 0),
       ("Path", if (⟨c1⟩ : String) ≠ (⟨c2⟩ : String)
                then CellVal.str "No path found"
                else CellVal.str ⟨c1⟩)]
  | _ => Option.none

/-- Build one term-mode shortest-path record (lines 443-472). -/
def buildSPRecordTerm (pair1 pair2 : String)
    (m : Nat × List (List Char)) : Option DFRow :=
  match m with
  | (0, [len, t1, c1, t2, c2, path]) =>
    Option.some
      [("Term_1", CellVal.str ⟨t1⟩), ("CUI_1", CellVal.str ⟨c1⟩),
       ("Term_2", CellVal.str ⟨t2⟩), ("CUI_2", CellVal.str ⟨c2⟩),
       ("Length", CellVal.str ⟨len⟩),
       ("Path", CellVal.str (renderPathString path))]
  | (1, [_, _]) =>
    Option.some
      [("Term_1", CellVal.str pair1), ("CUI_1", CellVal.none),
       ("Term_2", CellVal.str pair2), ("CUI_2", CellVal.none),
       ("Length", CellVal.str "No path found"),
       ("Path", CellVal.str "No path found")]
  | _ => Option.none

/-- The per-pair output-parsing part of `find_shortest_path_from_file`
(lines 396-472): decide CUI/term mode from the pair, run the matching
pattern over the decoded output of the child process for this pair,
and build the records. -/
def find_shortest_path_parse (pair1 pair2 : String) (output : String) :
    List DFRow :=
  if is_cui pair1 && is_cui pair2 then
    (finditer [spPathToks, spNoPathCuiToks] output.data).filterMap
      buildSPRecordCui
  else
    (finditer [spPathToks, spNoPathTermToks] output.data).filterMap
      (buildSPRecordTerm pair1 pair2)

set_option maxRecDepth 100000 in
/-- C5 counterexample: on the claimed output the parser's record does
not carry the integer 2 in its Length field — the code stores the
captured digit text `match.group('length')`, a string, unconverted. -/
theorem shortest_path_parse_length_not_int :
    (find_shortest_path_parse "C0001234" "C0005678"
        "The shortest path (length: 2) between Heart (C0001234) and Lung (C0005678): => C0001234 (Heart) => C0009999 (Thorax) => C0005678 (Lung)").map
        (fun r => r.lookup "Length")
      ≠ [Option.some (CellVal.int 2)] := by
  decide

set_option maxRecDepth 100000 in
/-- C5 as amended: on the output `The shortest path (length: 2)
between Heart (C0001234) and Lung (C0005678): => C0001234 (Heart) =>
C0009999 (Thorax) => C0005678 (Lung)` the parser produces one record
whose Length field is the string "2" (the captured digits, not a
machine integer) and whose Path field is the node sequence re-rendered
joined by " => ". -/
theorem shortest_path_parse_example :
    find_shortest_path_parse "C0001234" "C0005678"
        "The shortest path (length: 2) between Heart (C0001234) and Lung (C0005678): => C0001234 (Heart) => C0009999 (Thorax) => C0005678 (Lung)"
      = [[("Term_1", CellVal.str "Heart"),
          ("CUI_1", CellVal.str "C0001234"),
          ("Term_2", CellVal.str "Lung"),
          ("CUI_2", CellVal.str "C0005678"),
          ("Length", CellVal.str "2"),
          ("Path", CellVal.str
            "C0001234 (Heart) => C0009999 (Thorax) => C0005678 (Lung)")]] := by
  decide


lemma chompLit_self_append (l t : List Char) :
    chompLit l (l ++ t) = Option.some t := by
  induction l with
  | nil => rfl
  | cons c cs ih => simp [chompLit, ih]

lemma matchToks_lit_step (l t : List Char) (ts : List Tok) :
    matchToks (Tok.lit l :: ts) (l ++ t) = matchToks ts t := by
  simp [matchToks, chompLit_self_append]

lemma takeWhile_append_not (p : Char → Bool) (ds : List Char)
    (a : Char) (t : List Char) (h : ds.all p = true) (ha : p a = false) :
    (ds ++ a :: t).takeWhile p = ds := by
  induction ds with
  | nil => simp [List.takeWhile, ha]
  | cons c cs ih =>
    rw [List.all_cons, Bool.and_eq_true] at h
    simp [List.takeWhile, h.1, ih h.2]

lemma dropWhile_append_not (p : Char → Bool) (ds : List Char)
    (a : Char) (t : List Char) (h : ds.all p = true) (ha : p a = false) :
    (ds ++ a :: t).dropWhile p = a :: t := by
  induction ds with
  | nil => simp [List.dropWhile, ha]
  | cons c cs ih =>
    rw [List.all_cons, Bool.and_eq_true] at h
    simp [List.dropWhile, h.1, ih h.2]

lemma matchToks_cuiCap_step (ts : List Tok) (d a : Char)
    (ds t : List Char) (hd : d.isDigit = true)
    (hds : ds.all Char.isDigit = true) (ha : a.isDigit = false) :
    matchToks (Tok.cuiCap :: ts) ('C' :: d :: (ds ++ a :: t))
      = (matchToks ts (a :: t)).map
          (fun pr => (('C' :: d :: ds) :: pr.1, pr.2)) := by
  have hall : (d :: ds).all Char.isDigit = true := by
    rw [List.all_cons, Bool.and_eq_true]; exact ⟨hd, hds⟩
  have htake : (d :: (ds ++ a :: t)).takeWhile Char.isDigit = d :: ds := by
    have h := takeWhile_append_not Char.isDigit (d :: ds) a t hall ha
    simpa using h
  have hdrop : (d :: (ds ++ a :: t)).dropWhile Char.isDigit = a :: t := by
    have h := dropWhile_append_not Char.isDigit (d :: ds) a t hall ha
    simpa using h
  simp [matchToks, htake, hdrop]

lemma finditerAux_nil_of_no_match (alts : List (List Tok)) (n : Nat)
    (h : tryAlts alts [] = Option.none) : finditerAux alts n [] = [] := by
  cases n with
  | zero => rfl
  | succ m => simp [finditerAux, h]

lemma finditer_single_full_match (alts : List (List Tok))
    (s : List Char) (i : Nat) (caps : List (List Char))
    (h : tryAlts alts s = Option.some (i, caps, []))
    (hnil : tryAlts alts [] = Option.none) :
    finditer alts s = [(i, caps)] := by
  show finditerAux alts (Nat.succ s.length) s = [(i, caps)]
  simp [finditerAux, h, finditerAux_nil_of_no_match alts s.length hnil]

/-- Modelled from the spec: the external shortest-path tool (an
executable outside this repository) reports an unreachable pair as
`There is not a path between X and Y given the current view of the
UMLS.` on standard output (spec section 6; the trailing words are the
ones the source's own pattern at lines 401-402 encodes). -/
def noPathOutput (x y : String) : String :=
  "There is not a path between " ++ x ++ " and " ++ y
    ++ " given the current view of the UMLS."

lemma matchToks_spPathToks_noPath (x : List Char) :
    matchToks spPathToks ("There is not a path between ".data ++ x)
      = Option.none := rfl

lemma matchToks_spNoPathCui (d : Char) (ds : List Char)
    (hd : d.isDigit = true) (hds : ds.all Char.isDigit = true) :
    matchToks spNoPathCuiToks
        ("There is not a path between ".data
          ++ (('C' :: d :: ds)
            ++ (" and ".data
              ++ (('C' :: d :: ds)
                ++ " given the current view of the UMLS.".data))))
      = Option.some ([('C' :: d :: ds), ('C' :: d :: ds)], []) := by
  show matchToks
      (Tok.lit "There is not a path between ".data
        :: [Tok.cuiCap, Tok.lit " and ".data, Tok.cuiCap,
            Tok.lit " given the current view of the UMLS".data,
            Tok.anyChar])
      ("There is not a path between ".data
        ++ ('C' :: d :: (ds ++ ' '
            :: ("and ".data
              ++ ('C' :: d :: (ds ++ ' '
                :: "given the current view of the UMLS.".data))))))
    = Option.some ([('C' :: d :: ds), ('C' :: d :: ds)], [])
  rw [matchToks_lit_step]
  rw [matchToks_cuiCap_step _ d ' ' ds _ hd hds rfl]
  rw [show (' ' :: ("and ".data
        ++ ('C' :: d :: (ds ++ ' '
          :: "given the current view of the UMLS.".data))))
      = " and ".data
        ++ ('C' :: d :: (ds ++ ' '
          :: "given the current view of the UMLS.".data)) from rfl]
  rw [matchToks_lit_step]
  rw [matchToks_cuiCap_step _ d ' ' ds _ hd hds rfl]
  rfl

/-- C3: for a pair whose source and destination are the same CUI, the
shortest-path operation — parsing the external tool's no-path report
for that pair — produces a record whose Length field is 0 and whose
Path field is that CUI itself (lines 432-442: the `cui1 != cui2`
sentinel is replaced by `0` and by `cui1` when the two captured CUIs
coincide). -/
theorem shortest_path_same_pair_zero (c : String) (d : Char)
    (ds : List Char) (hc : c.data = 'C' :: d :: ds)
    (hd : d.isDigit = true) (hds : ds.all Char.isDigit = true) :
    find_shortest_path_parse c c (noPathOutput c c)
      = [[("Term_1", CellVal.none), ("CUI_1", CellVal.str c),
          ("Term_2", CellVal.none), ("CUI_2", CellVal.str c),
          ("Length", CellVal.int 0), ("Path", CellVal.str c)]] := by
  have hcui : is_cui c = true := by simp [is_cui, hc, hd]
  have hmk : (⟨'C' :: d :: ds⟩ : String) = c := by rw [← hc]
  have hdata : (noPathOutput c c).data
      = "There is not a path between ".data
        ++ (('C' :: d :: ds)
          ++ (" and ".data
            ++ (('C' :: d :: ds)
              ++ " given the current view of the UMLS.".data))) := by
    simp [noPathOutput, hc]
  have hfind : finditer [spPathToks, spNoPathCuiToks]
      (noPathOutput c c).data
      = [(1, [('C' :: d :: ds), ('C' :: d :: ds)])] := by
    rw [hdata]
    apply finditer_single_full_match
    · have h1 := matchToks_spPathToks_noPath
        (('C' :: d :: ds)
          ++ (" and ".data
            ++ (('C' :: d :: ds)
              ++ " given the current view of the UMLS.".data)))
      have h2 := matchToks_spNoPathCui d ds hd hds
      simp only [tryAlts, tryAltsFrom, h1, h2]
    · rfl
  simp only [find_shortest_path_parse, hcui, Bool.and_self, if_true]
  rw [hfind]
  simp [buildSPRecordCui, hmk]

/-- Witness for C3 at the concrete CUI C0001234. -/
theorem shortest_path_same_pair_zero_witness :
    ("C0001234".data = 'C' :: '0' :: ['0', '0', '1', '2', '3', '4'] ∧
      ('0' : Char).isDigit = true ∧
      (['0', '0', '1', '2', '3', '4'] : List Char).all Char.isDigit = true) ∧
    find_shortest_path_parse "C0001234" "C0001234"
        (noPathOutput "C0001234" "C0001234")
      = [[("Term_1", CellVal.none), ("CUI_1", CellVal.str "C0001234"),
          ("Term_2", CellVal.none), ("CUI_2", CellVal.str "C0001234"),
          ("Length", CellVal.int 0), ("Path", CellVal.str "C0001234")]] :=
  ⟨⟨rfl, rfl, by decide⟩,
    shortest_path_same_pair_zero "C0001234" '0' ['0', '0', '1', '2', '3', '4']
      rfl rfl (by decide)⟩

/-- The pair-file serialisation loop (lines 120-122 and 316-318):
`f_out.write(f"{cui1}<>{cui2}\n")` for each pair, in order. -/
def writePairLines (ps : List (List Char × List Char)) : List Char :=
  ps.foldr (fun p acc => p.1 ++ '<' :: '>' :: p.2 ++ '\n' :: acc) []

/-- Split a character list at every occurrence of `c` (Python
`str.split` on a one-character separator). -/
def splitOnCh (c : Char) : List Char → List (List Char)
  | [] => [[]]
  | a :: r =>
    if a = c then [] :: splitOnCh c r
    else
      match splitOnCh c r with
      | [] => [[a]]
      | x :: xs => (a :: x) :: xs

/-- Read a file's text line by line, as Python file iteration does:
newline-terminated segments, without their terminators, with no empty
final segment for a trailing newline. -/
def readLines (s : List Char) : List (List Char) :=
  let parts := splitOnCh '\n' s
  if parts.getLast? = Option.some [] then parts.dropLast else parts

/-- Python `line.split('<>')`: split at every non-overlapping
occurrence of the two-character delimiter, scanning left to right. -/
def splitOnLG : List Char → List (List Char)
  | [] => [[]]
  | [a] => [[a]]
  | a :: b :: r =>
    if a = '<' ∧ b = '>' then [] :: splitOnLG r
    else
      match splitOnLG (b :: r) with
      | [] => [[a]]
      | x :: xs => (a :: x) :: xs

/-- Whether the `<>` delimiter occurs in a character list. -/
def hasLG : List Char → Bool
  | [] => false
  | [_] => false
  | a :: b :: r => (a = '<' && b = '>') || hasLG (b :: r)

lemma splitOnCh_ne_nil (c : Char) (xs : List Char) :
    splitOnCh c xs ≠ [] := by
  cases xs with
  | nil => simp [splitOnCh]
  | cons a r =>
    by_cases h : a = c
    · simp [splitOnCh, h]
    · simp only [splitOnCh, if_neg h]
      cases splitOnCh c r with
      | nil => simp
      | cons x xs => simp

lemma splitOnCh_no_occurrence (c : Char) (xs : List Char)
    (h : c ∉ xs) : splitOnCh c xs = [xs] := by
  induction xs with
  | nil => rfl
  | cons a r ih =>
    have ha : a ≠ c := fun e => h (e ▸ List.mem_cons_self a r)
    have hr : c ∉ r := fun e => h (List.mem_cons_of_mem a e)
    simp [splitOnCh, ha, ih hr]

lemma splitOnCh_append (c : Char) (p rest : List Char) (h : c ∉ p) :
    splitOnCh c (p ++ c :: rest) = p :: splitOnCh c rest := by
  induction p with
  | nil => simp [splitOnCh]
  | cons a t ih =>
    have ha : a ≠ c := fun e => h (e ▸ List.mem_cons_self a t)
    have ht : c ∉ t := fun e => h (List.mem_cons_of_mem a e)
    simp only [List.cons_append, splitOnCh, if_neg ha]
    rw [show t.append (c :: rest) = t ++ c :: rest from rfl, ih ht]

lemma readLines_cons_line (line rest : List Char) (h : '\n' ∉ line) :
    readLines (line ++ '\n' :: rest) = line :: readLines rest := by
  unfold readLines
  rw [splitOnCh_append '\n' line rest h]
  rcases hp : splitOnCh '\n' rest with _ | ⟨x, xs⟩
  · exact absurd hp (splitOnCh_ne_nil '\n' rest)
  · by_cases hl : (x :: xs).getLast? = Option.some []
    · simp [List.getLast?_cons_cons, hl]
    · simp [List.getLast?_cons_cons, hl]

lemma splitOnLG_no_delim (xs : List Char) (h : hasLG xs = false) :
    splitOnLG xs = [xs] := by
  induction xs with
  | nil => rfl
  | cons a t ih =>
    cases t with
    | nil => rfl
    | cons b r =>
      rw [hasLG, Bool.or_eq_false_iff] at h
      have hab : ¬ (a = '<' ∧ b = '>') := by
        intro hand
        rw [hand.1, hand.2] at h
        simp at h
      simp only [splitOnLG, if_neg hab, ih h.2]

lemma splitOnLG_append (p rest : List Char) (h : hasLG p = false) :
    splitOnLG (p ++ '<' :: '>' :: rest) = p :: splitOnLG rest := by
  induction p with
  | nil => simp [splitOnLG]
  | cons a t ih =>
    cases t with
    | nil =>
      have hab : ¬ (a = '<' ∧ ('<' : Char) = '>') := by
        intro hand; cases hand.2
      simp only [List.cons_append, List.nil_append, splitOnLG, if_neg hab]
      rcases hr : splitOnLG ('<' :: '>' :: rest) with _ | ⟨x, xs⟩
      · rw [show splitOnLG ('<' :: '>' :: rest)
            = [] :: splitOnLG rest from by simp [splitOnLG]] at hr
        cases hr
      · rw [show splitOnLG ('<' :: '>' :: rest)
            = [] :: splitOnLG rest from by simp [splitOnLG]] at hr
        cases hr
        rfl
    | cons b r =>
      rw [hasLG, Bool.or_eq_false_iff] at h
      have hab : ¬ (a = '<' ∧ b = '>') := by
        intro hand
        rw [hand.1, hand.2] at h
        simp at h
      simp only [List.cons_append, splitOnLG, if_neg hab]
      rw [show b :: r.append ('<' :: '>' :: rest)
          = (b :: r) ++ '<' :: '>' :: rest from rfl, ih h.2]

lemma readLines_writePairLines (ps : List (List Char × List Char))
    (h : ∀ pr ∈ ps, '\n' ∉ pr.1 ∧ '\n' ∉ pr.2) :
    readLines (writePairLines ps)
      = ps.map (fun pr => pr.1 ++ '<' :: '>' :: pr.2) := by
  induction ps with
  | nil => rfl
  | cons pr ps ih =>
    obtain ⟨h1, h2⟩ := h pr (List.mem_cons_self pr ps)
    have hline : '\n' ∉ pr.1 ++ '<' :: '>' :: pr.2 := by
      intro hm
      rcases List.mem_append.mp hm with hm | hm
      · exact h1 hm
      · rcases List.mem_cons.mp hm with hm | hm
        · cases hm
        · rcases List.mem_cons.mp hm with hm | hm
          · cases hm
          · exact h2 hm
    have hshape : writePairLines (pr :: ps)
        = (pr.1 ++ '<' :: '>' :: pr.2) ++ '\n' :: writePairLines ps := by
      simp [writePairLines]
    rw [hshape, readLines_cons_line _ _ hline,
      ih (fun q hq => h q (List.mem_cons_of_mem pr hq))]
    rfl

/-- C7: writing a list of pairs to the pair-list file and reading the
file back line by line yields the same pairs in the same order, each
line splitting on `<>` into exactly two non-empty tokens — provided
each pair component is non-empty and contains neither the `<>`
delimiter nor a newline. -/
theorem pair_file_round_trip (ps : List (List Char × List Char))
    (h : ∀ pr ∈ ps, pr.1 ≠ [] ∧ pr.2 ≠ [] ∧ '\n' ∉ pr.1 ∧ '\n' ∉ pr.2 ∧
      hasLG pr.1 = false ∧ hasLG pr.2 = false) :
    (readLines (writePairLines ps)).map splitOnLG
        = ps.map (fun pr => [pr.1, pr.2]) ∧
    (∀ line ∈ readLines (writePairLines ps),
      (splitOnLG line).length = 2 ∧ ∀ tk ∈ splitOnLG line, tk ≠ []) := by
  have hrl := readLines_writePairLines ps
    (fun pr hpr => ⟨(h pr hpr).2.2.1, (h pr hpr).2.2.2.1⟩)
  have hsplit : ∀ pr ∈ ps,
      splitOnLG (pr.1 ++ '<' :: '>' :: pr.2) = [pr.1, pr.2] := by
    intro pr hpr
    rw [splitOnLG_append pr.1 pr.2 (h pr hpr).2.2.2.2.1,
      splitOnLG_no_delim pr.2 (h pr hpr).2.2.2.2.2]
  constructor
  · rw [hrl, List.map_map]
    exact List.map_congr_left (fun pr hpr => hsplit pr hpr)
  · intro line hline
    rw [hrl] at hline
    obtain ⟨pr, hpr, heq⟩ := List.mem_map.mp hline
    rw [← heq, hsplit pr hpr]
    refine ⟨rfl, ?_⟩
    intro tk htk
    rcases List.mem_cons.mp htk with rfl | htk
    · exact (h pr hpr).1
    · rcases List.mem_cons.mp htk with rfl | htk
      · exact (h pr hpr).2.1
      · cases htk

/-- Witness for C7 at a concrete two-pair list. -/
theorem pair_file_round_trip_witness :
    (∀ pr ∈ [("C0001234".data, "C0005678".data),
             ("C0018787".data, "C0024109".data)],
      pr.1 ≠ [] ∧ pr.2 ≠ [] ∧ '\n' ∉ pr.1 ∧ '\n' ∉ pr.2 ∧
        hasLG pr.1 = false ∧ hasLG pr.2 = false) ∧
    (readLines (writePairLines
        [("C0001234".data, "C0005678".data),
         ("C0018787".data, "C0024109".data)])).map splitOnLG
      = [[ "C0001234".data, "C0005678".data],
         [ "C0018787".data, "C0024109".data]] :=
  ⟨by decide,
    (pair_file_round_trip
      [("C0001234".data, "C0005678".data),
       ("C0018787".data, "C0024109".data)] (by decide)).1⟩

/-- `measure_df.rename(columns={old: new})`. -/
def renameCol (old new : String) (df : DF) : DF :=
  ⟨df.cols.map (fun c => if c = old then new else c),
   df.rows.map (fun row => row.map (fun p =>
     if p.1 = old then (new, p.2) else p))⟩

/-- The attributes a `PyUMLS_Similarity` object carries.  `verbose` is
`Option Bool`: `Option.none` models the attribute not being set on the
object (accessing it then raises AttributeError). -/
structure PyUMLSObj where
  perl_bin_path : String
  mysql_info : List (String × String)
  work_directory : String
  verbose : Option Bool

/-- `__init__` (lines 68-71): it assigns `perl_bin_path`, `mysql_info`
and `work_directory` (with defaults for falsy values) and never
assigns `verbose`. -/
def PyUMLS_Similarity_init (mysql_info : List (String × String))
    (perl_bin_path work_directory : String) : PyUMLSObj :=
  { perl_bin_path :=
      if perl_bin_path = "" then "C:\\Strawberry\\perl\\bin\\perl.exe"
      else perl_bin_path,
    mysql_info := mysql_info,
    work_directory :=
      if work_directory = "" then "C:\\Strawberry\\perl\\site\\bin"
      else work_directory,
    verbose := Option.none }

/-- The `for measure, measure_df in all_results` loop of
`combine_similarity_results` (lines 159-175): a measure whose derived
column name already exists in the accumulated frame reaches the
`if self.verbose:` check (raising AttributeError when the attribute
was never set) and is otherwise skipped; a new measure's frame is
renamed and outer-merged on the four identity columns (pandas default
suffixes `('_x', '_y')`). -/
def combineAux (verbose : Option Bool) :
    DF → List (String × DF) → Except PyErr DF
  | acc, [] => Except.ok acc
  | acc, (measure, mdf) :: rest =>
    let mcol := "Similarity (" ++ measure ++ ")"
    if mcol ∈ acc.cols then
      match verbose with
      | Option.none => Except.error (PyErr.attributeError "verbose")
      | Option.some _ => combineAux verbose acc rest
    else
      let mdf2 := renameCol measure mcol mdf
      let acc2 :=
        if dfEmpty acc then mdf2
        else pdMergeOuter acc mdf2 ["Term_1", "CUI_1", "Term_2", "CUI_2"]
          "_x" "_y"
      combineAux verbose acc2 rest

/-- `combine_similarity_results` (lines 141-175), starting from
`pd.DataFrame()`. -/
def combine_similarity_results (verbose : Option Bool)
    (all_results : List (String × DF)) : Except PyErr DF :=
  combineAux verbose emptyDF all_results

/-- C6 (code bug): on a duplicate measure the skip branch evaluates
`self.verbose`, an attribute `__init__` never assigns, so instead of
skipping the measure the loop raises AttributeError: combining
`[('lch', d), ('lch', d)]` on a freshly constructed object fails for
every frame `d` that carries an `lch` column. -/
theorem combine_duplicate_measure_attribute_error (d : DF)
    (hd : "lch" ∈ d.cols) (mysql : List (String × String))
    (perl wd : String) :
    combine_similarity_results
        (PyUMLS_Similarity_init mysql perl wd).verbose
        [("lch", d), ("lch", d)]
      = Except.error (PyErr.attributeError "verbose") := by
  have hmem : "Similarity (lch)"
      ∈ (renameCol "lch" "Similarity (lch)" d).cols :=
    List.mem_map.mpr ⟨"lch", hd, by simp⟩
  simp [combine_similarity_results, combineAux, emptyDF, dfEmpty,
    PyUMLS_Similarity_init, hmem]

/-- Witness for C6 at a concrete similarity frame. -/
theorem combine_duplicate_measure_attribute_error_witness :
    ("lch" ∈ (⟨["Term_1", "CUI_1", "Term_2", "CUI_2", "lch"], []⟩ : DF).cols) ∧
    combine_similarity_results
        (PyUMLS_Similarity_init [("database", "umls")] "" "").verbose
        [("lch", ⟨["Term_1", "CUI_1", "Term_2", "CUI_2", "lch"], []⟩),
         ("lch", ⟨["Term_1", "CUI_1", "Term_2", "CUI_2", "lch"], []⟩)]
      = Except.error (PyErr.attributeError "verbose") :=
  ⟨by decide,
    combine_duplicate_measure_attribute_error
      ⟨["Term_1", "CUI_1", "Term_2", "CUI_2", "lch"], []⟩ (by decide)
      [("database", "umls")] "" ""⟩

lemma endsWithStr_append_suffix (s t : String) :
    endsWithStr (s ++ t) t = true := by
  unfold endsWithStr
  rw [String.data_append]
  exact List.isSuffixOf_iff_suffix.mpr (List.suffix_append s.data t.data)

lemma mergeStep_left_mem (u : Bool) (f d : DF) (c : String)
    (hc : c ∈ f.cols) (hnd : endsWithStr c "_drop" = false) :
    c ∈ (mergeStep u f d).cols := by
  simp only [mergeStep, dropSuffixCols, pdMergeOuter, dropColumns,
    mergeOverlap, renSuffix, rightDataCols]
  rw [List.mem_filter]
  refine ⟨List.mem_append_left _ ?_, by simp [hnd]⟩
  refine List.mem_map.mpr ⟨c, hc, ?_⟩
  split
  · exact String.append_empty c
  · rfl

lemma mergeStep_cols_subset (u : Bool) (f d : DF) :
    (mergeStep u f d).cols ⊆ f.cols ++ d.cols := by
  intro x hx
  simp only [mergeStep, dropSuffixCols, pdMergeOuter, dropColumns,
    mergeOverlap, renSuffix, rightDataCols]
    at hx
  obtain ⟨hx, hpred⟩ := List.mem_filter.mp hx
  rcases List.mem_append.mp hx with h | h
  · obtain ⟨c, hc, hval⟩ := List.mem_map.mp h
    refine List.mem_append_left _ ?_
    split at hval
    · rw [String.append_empty] at hval
      exact hval ▸ hc
    · exact hval ▸ hc
  · obtain ⟨hrr, _⟩ := List.mem_filter.mp h
    obtain ⟨c, hcd, hval⟩ := List.mem_map.mp hrr
    obtain ⟨hcdm, _⟩ := List.mem_filter.mp hcd
    split at hval
    · rw [← hval] at hpred
      rw [endsWithStr_append_suffix] at hpred
      cases hpred
    · exact List.mem_append_right _ (hval ▸ hcdm)

lemma mergeStep_right_mem (u : Bool) (f d : DF) (c : String)
    (hc : c ∈ d.cols) (h1 : c ∉ nonMergeCols u) (h2 : c ∉ f.cols)
    (h3 : c ∉ mergeOnCols u) (h4 : endsWithStr c "_drop" = false) :
    c ∈ (mergeStep u f d).cols := by
  simp only [mergeStep, dropSuffixCols, pdMergeOuter, dropColumns,
    mergeOverlap, renSuffix, rightDataCols]
  rw [List.mem_filter]
  refine ⟨List.mem_append_right _ ?_, by simp [h4]⟩
  rw [List.mem_filter]
  refine ⟨?_, by simp [h3]⟩
  refine List.mem_map.mpr ⟨c, ?_, ?_⟩
  · exact List.mem_filter.mpr ⟨hc, by simp [h1]⟩
  · split
    · next hov =>
        exfalso
        obtain ⟨_, hovp⟩ := List.mem_filter.mp hov
        rw [Bool.and_eq_true] at hovp
        exact h2 (of_decide_eq_true hovp.1)
    · rfl

/-- C1: dispatching the three documented operations where exactly one
task's execution raises: `run_concurrently` still returns (the failing
task does not abort its siblings), the diagnostic log is exactly the
message naming the failing operation and its cause, the merged table
is the merger's combination of the two non-failing results only, its
columns all come from the non-failing results (the failing operation
contributes no columns), and each non-failing result's columns are
present (the first table's columns entirely; a later table's columns
except the dropped non-merge identity columns, the join keys it shares
with the first, and name collisions). -/
theorem run_concurrently_partial_failure
    (t1 t2 t3 : TaskRun) (u : Bool) (a : PyVal) (args1 : List PyVal)
    (A B : DF) (fname e : String)
    (hf1 : t1.function = "similarity")
    (hf2 : t2.function = "shortest_path")
    (hf3 : t3.function = "lcs")
    (hargs : t1.arguments = a :: args1)
    (hdetect : detect_cui_or_term a = Except.ok u)
    (hfail :
      (t1.result = Except.error e ∧ t2.result = Except.ok A ∧
        t3.result = Except.ok B ∧ fname = "similarity")
      ∨ (t1.result = Except.ok A ∧ t2.result = Except.error e ∧
        t3.result = Except.ok B ∧ fname = "shortest_path")
      ∨ (t1.result = Except.ok A ∧ t2.result = Except.ok B ∧
        t3.result = Except.error e ∧ fname = "lcs")) :
    ∃ df : DF,
      run_concurrently [t1, t2, t3]
          = Except.ok ([taskFailureMsg fname e], df) ∧
      df = mergeStep u A B ∧
      df.cols ⊆ A.cols ++ B.cols ∧
      (∀ c ∈ A.cols, endsWithStr c "_drop" = false → c ∈ df.cols) ∧
      (∀ c ∈ B.cols, c ∉ nonMergeCols u → c ∉ A.cols →
        c ∉ mergeOnCols u → endsWithStr c "_drop" = false →
        c ∈ df.cols) := by
  refine ⟨mergeStep u A B, ?_, rfl, mergeStep_cols_subset u A B,
    fun c hc hnd => mergeStep_left_mem u A B c hc hnd,
    fun c hc h1 h2 h3 h4 => mergeStep_right_mem u A B c hc h1 h2 h3 h4⟩
  rcases hfail with ⟨hr1, hr2, hr3, hn⟩ | ⟨hr1, hr2, hr3, hn⟩
    | ⟨hr1, hr2, hr3, hn⟩
  · have hcollect : collectResults [t1, t2, t3]
        = ([taskFailureMsg fname e],
           [("shortest_path", A), ("lcs", B)]) := by
      simp [collectResults, dictInsert, hf1, hf2, hf3, hr1, hr2, hr3, hn]
    have hmr : merge_results [("shortest_path", A), ("lcs", B)] u
        = mergeStep u A B := rfl
    simp [run_concurrently, hargs, hdetect, hcollect, hmr]
  · have hcollect : collectResults [t1, t2, t3]
        = ([taskFailureMsg fname e],
           [("similarity", A), ("lcs", B)]) := by
      simp [collectResults, dictInsert, hf1, hf2, hf3, hr1, hr2, hr3, hn]
    have hmr : merge_results [("similarity", A), ("lcs", B)] u
        = mergeStep u A B := rfl
    simp [run_concurrently, hargs, hdetect, hcollect, hmr]
  · have hcollect : collectResults [t1, t2, t3]
        = ([taskFailureMsg fname e],
           [("similarity", A), ("shortest_path", B)]) := by
      simp [collectResults, dictInsert, hf1, hf2, hf3, hr1, hr2, hr3, hn]
    have hmr : merge_results [("similarity", A), ("shortest_path", B)] u
        = mergeStep u A B := rfl
    simp [run_concurrently, hargs, hdetect, hcollect, hmr]

/-- A concrete similarity result table used as a dispatch witness. -/
def wSimTable : DF :=
  ⟨["Term_1", "CUI_1", "Term_2", "CUI_2", "Similarity (lch)"], []⟩

/-- A concrete LCS result table used as a dispatch witness. -/
def wLcsTable : DF :=
  ⟨["Term_1", "CUI_1", "Term_2", "CUI_2", "LCS_Term"], []⟩

/-- A concrete CUI pair list argument used as a dispatch witness. -/
def wPairsArg : PyVal :=
  PyVal.list [PyVal.tuple [PyVal.str "C0001234", PyVal.str "C0005678"]]

/-- Witness for C1: three tasks of which the shortest-path one fails. -/
theorem run_concurrently_partial_failure_witness :
    detect_cui_or_term wPairsArg = Except.ok true ∧
    (∃ df : DF,
      run_concurrently
          [⟨"similarity", [wPairsArg], Except.ok wSimTable⟩,
           ⟨"shortest_path", [wPairsArg], Except.error "boom"⟩,
           ⟨"lcs", [wPairsArg], Except.ok wLcsTable⟩]
        = Except.ok ([taskFailureMsg "shortest_path" "boom"], df) ∧
      df = mergeStep true wSimTable wLcsTable ∧
      df.cols ⊆ wSimTable.cols ++ wLcsTable.cols ∧
      (∀ c ∈ wSimTable.cols, endsWithStr c "_drop" = false →
        c ∈ df.cols) ∧
      (∀ c ∈ wLcsTable.cols, c ∉ nonMergeCols true →
        c ∉ wSimTable.cols → c ∉ mergeOnCols true →
        endsWithStr c "_drop" = false → c ∈ df.cols)) :=
  ⟨rfl,
    run_concurrently_partial_failure
      ⟨"similarity", [wPairsArg], Except.ok wSimTable⟩
      ⟨"shortest_path", [wPairsArg], Except.error "boom"⟩
      ⟨"lcs", [wPairsArg], Except.ok wLcsTable⟩
      true wPairsArg [] wSimTable wLcsTable "shortest_path" "boom"
      rfl rfl rfl rfl rfl
      (Or.inr (Or.inl ⟨rfl, rfl, rfl, rfl⟩))⟩

lemma DF_eq_of_parts (a b : DF) (h1 : a.cols = b.cols)
    (h2 : a.rows = b.rows) : a = b := by
  cases a; cases b
  cases h1; cases h2
  rfl

lemma renSuffix_empty_suffix (overlap : List String) (df : DF) :
    renSuffix overlap "" df = df := by
  cases df with
  | mk cols rows =>
    unfold renSuffix
    simp [String.append_empty]

lemma flatMap_eq_map_of_singleton {α β : Type} (f : α → List β)
    (g : α → β) (l : List α) (h : ∀ x ∈ l, f x = [g x]) :
    l.flatMap f = l.map g := by
  induction l with
  | nil => rfl
  | cons a r ih =>
    rw [List.flatMap_cons, h a (List.mem_cons_self a r),
      ih (fun x hx => h x (List.mem_cons_of_mem a hx)), List.map_cons]
    rfl

lemma filter_key_eq_singleton {α γ : Type} [DecidableEq γ] (f : α → γ) :
    ∀ (l : List α) (x : α), x ∈ l → (l.map f).Nodup →
      l.filter (fun y => decide (f y = f x)) = [x]
  | [], x, hx, _ => absurd hx (List.not_mem_nil x)
  | a :: r, x, hx, hnd => by
    rw [List.map_cons, List.nodup_cons] at hnd
    rcases List.mem_cons.mp hx with rfl | hxr
    · rw [List.filter_cons_of_pos (by simp)]
      rw [List.filter_eq_nil_iff.mpr ?_]
      intro y hy hfy
      exact hnd.1 (List.mem_map.mpr ⟨y, hy, (of_decide_eq_true hfy).symm ▸ rfl⟩)
    · rw [List.filter_cons_of_neg ?_, filter_key_eq_singleton f r x hxr hnd.2]
      simp only [decide_eq_true_eq]
      intro hax
      exact hnd.1 (List.mem_map.mpr ⟨x, hxr, hax ▸ rfl⟩)

lemma lookup_filter_ren (nm overlap : List String) (c : String)
    (hnm : c ∉ nm) (hov : c ∉ overlap)
    (hdrop : ∀ k : String, k ++ "_drop" ≠ c) :
    ∀ row : DFRow,
      List.lookup c ((row.filter (fun p => !(decide (p.1 ∈ nm)))).map
        (fun p => if p.1 ∈ overlap then (p.1 ++ "_drop", p.2) else p))
        = List.lookup c row
  | [] => rfl
  | (k, v) :: r => by
    by_cases h1 : k ∈ nm
    · have hne : (c == k) = false := by
        simp only [beq_eq_false_iff_ne, ne_eq]
        intro he; exact hnm (he ▸ h1)
      rw [List.filter_cons_of_neg (by simp [h1])]
      rw [lookup_filter_ren nm overlap c hnm hov hdrop r]
      simp only [List.lookup_cons, hne]
    · rw [List.filter_cons_of_pos (by simp [h1])]
      by_cases h2 : k ∈ overlap
      · have hne : (c == k ++ "_drop") = false := by
          simp only [beq_eq_false_iff_ne, ne_eq]
          intro he; exact hdrop k he.symm
        have hne2 : (c == k) = false := by
          simp only [beq_eq_false_iff_ne, ne_eq]
          intro he; exact hov (he ▸ h2)
        simp only [List.map_cons, if_pos h2, List.lookup_cons, hne, hne2]
        exact lookup_filter_ren nm overlap c hnm hov hdrop r
      · simp only [List.map_cons, if_neg h2, List.lookup_cons]
        by_cases h3 : (c == k) = true
        · simp only [h3]
        · rw [Bool.not_eq_true] at h3
          simp only [h3]
          exact lookup_filter_ren nm overlap c hnm hov hdrop r

/-- How a row of the original table reappears on the right side of the
self-merge: its non-merge identity entries are dropped and its
remaining non-key entries are suffixed. -/
def projSelfRow (nm overlap : List String) (row : DFRow) : DFRow :=
  (row.filter (fun p => !(decide (p.1 ∈ nm)))).map
    (fun p => if p.1 ∈ overlap then (p.1 ++ "_drop", p.2) else p)

lemma mergeOn_not_nonMerge (u : Bool) :
    ∀ c ∈ mergeOnCols u, c ∉ nonMergeCols u := by
  cases u <;> decide

lemma mergeOn_no_drop_suffix (u : Bool) :
    ∀ c ∈ mergeOnCols u, endsWithStr c "_drop" = false := by
  cases u <;> decide

lemma mergeOn_ne_drop (u : Bool) :
    ∀ c ∈ mergeOnCols u, ∀ k : String, k ++ "_drop" ≠ c := by
  intro c hc k he
  have h1 := endsWithStr_append_suffix k "_drop"
  rw [he, mergeOn_no_drop_suffix u c hc] at h1
  cases h1

lemma mem_mergeOverlap_not_onc (l r : DF) (onc : List String)
    (c : String) (hc : c ∈ mergeOverlap l r onc) : c ∉ onc := by
  obtain ⟨_, hp⟩ := List.mem_filter.mp hc
  rw [Bool.and_eq_true] at hp
  simpa using hp.2

lemma rightDataCols_self_all_drop (u : Bool) (T : DF) :
    ∀ c ∈ rightDataCols
      (renSuffix
        (mergeOverlap T (dropColumns (nonMergeCols u) T) (mergeOnCols u))
        "_drop" (dropColumns (nonMergeCols u) T)) (mergeOnCols u),
      endsWithStr c "_drop" = true := by
  intro c hc
  obtain ⟨hcc, hconc⟩ := List.mem_filter.mp hc
  obtain ⟨c0, hc0, hval⟩ := List.mem_map.mp hcc
  split at hval
  · rw [← hval]
    exact endsWithStr_append_suffix c0 "_drop"
  · next hc0ov =>
    exfalso
    obtain ⟨hc0T, _⟩ := List.mem_filter.mp hc0
    apply hc0ov
    apply List.mem_filter.mpr
    refine ⟨hc0, ?_⟩
    rw [Bool.and_eq_true]
    refine ⟨decide_eq_true hc0T, ?_⟩
    rw [← hval] at hconc
    exact hconc

lemma mergeStep_self_eq (u : Bool) (T : DF)
    (hw : ∀ row ∈ T.rows, row.map Prod.fst = T.cols)
    (hnd : ∀ c ∈ T.cols, endsWithStr c "_drop" = false)
    (hkeys : (T.rows.map (rowKey (mergeOnCols u))).Nodup) :
    mergeStep u T T = T := by
  classical
  have hkeyproj : ∀ row : DFRow,
      rowKey (mergeOnCols u)
        (projSelfRow (nonMergeCols u)
          (mergeOverlap T (dropColumns (nonMergeCols u) T) (mergeOnCols u))
          row)
        = rowKey (mergeOnCols u) row := by
    intro row
    unfold rowKey projSelfRow
    apply List.map_congr_left
    intro c hc
    exact lookup_filter_ren (nonMergeCols u) _ c
      (mergeOn_not_nonMerge u c hc)
      (fun hOV => mem_mergeOverlap_not_onc _ _ _ c hOV hc)
      (fun k => mergeOn_ne_drop u c hc k) row
  have hrrrows : (renSuffix
      (mergeOverlap T (dropColumns (nonMergeCols u) T) (mergeOnCols u))
      "_drop" (dropColumns (nonMergeCols u) T)).rows
      = T.rows.map (projSelfRow (nonMergeCols u)
          (mergeOverlap T (dropColumns (nonMergeCols u) T)
            (mergeOnCols u))) := by
    unfold renSuffix dropColumns projSelfRow
    rw [List.map_map]
    rfl
  have hms : ∀ row ∈ T.rows,
      (T.rows.map (projSelfRow (nonMergeCols u)
          (mergeOverlap T (dropColumns (nonMergeCols u) T)
            (mergeOnCols u)))).filter
        (fun rrow => decide (rowKey (mergeOnCols u) rrow
          = rowKey (mergeOnCols u) row))
      = [projSelfRow (nonMergeCols u)
          (mergeOverlap T (dropColumns (nonMergeCols u) T) (mergeOnCols u))
          row] := by
    intro row hrow
    rw [List.filter_map]
    rw [List.filter_congr
      (fun y _ => by
        show decide (rowKey (mergeOnCols u) (projSelfRow _ _ y)
            = rowKey (mergeOnCols u) row)
          = decide (rowKey (mergeOnCols u) y = rowKey (mergeOnCols u) row)
        rw [hkeyproj y])]
    rw [filter_key_eq_singleton (rowKey (mergeOnCols u)) T.rows row hrow
      hkeys]
    rfl
  apply DF_eq_of_parts
  · show ((renSuffix
        (mergeOverlap T (dropColumns (nonMergeCols u) T) (mergeOnCols u))
        "" T).cols
      ++ rightDataCols
          (renSuffix
            (mergeOverlap T (dropColumns (nonMergeCols u) T)
              (mergeOnCols u))
            "_drop" (dropColumns (nonMergeCols u) T)) (mergeOnCols u)).filter
        (fun c => !(endsWithStr c "_drop"))
      = T.cols
    rw [renSuffix_empty_suffix]
    rw [List.filter_append]
    rw [List.filter_eq_self.mpr
      (fun c hc => by simp [hnd c hc])]
    rw [List.filter_eq_nil_iff.mpr
      (fun c hc => by simp [rightDataCols_self_all_drop u T c hc])]
    exact List.append_nil T.cols
  · show (mergedLeftRows
        (renSuffix
          (mergeOverlap T (dropColumns (nonMergeCols u) T) (mergeOnCols u))
          "" T)
        (renSuffix
          (mergeOverlap T (dropColumns (nonMergeCols u) T) (mergeOnCols u))
          "_drop" (dropColumns (nonMergeCols u) T))
        (mergeOnCols u)
        (rightDataCols
          (renSuffix
            (mergeOverlap T (dropColumns (nonMergeCols u) T)
              (mergeOnCols u))
            "_drop" (dropColumns (nonMergeCols u) T)) (mergeOnCols u))
      ++ mergedRightRows
        (renSuffix
          (mergeOverlap T (dropColumns (nonMergeCols u) T) (mergeOnCols u))
          "" T)
        (renSuffix
          (mergeOverlap T (dropColumns (nonMergeCols u) T) (mergeOnCols u))
          "_drop" (dropColumns (nonMergeCols u) T))
        (mergeOnCols u)
        (rightDataCols
          (renSuffix
            (mergeOverlap T (dropColumns (nonMergeCols u) T)
              (mergeOnCols u))
            "_drop" (dropColumns (nonMergeCols u) T)) (mergeOnCols u))).map
        (fun row => row.filter (fun p => !(endsWithStr p.1 "_drop")))
      = T.rows
    rw [renSuffix_empty_suffix]
    have hleft : mergedLeftRows T
        (renSuffix
          (mergeOverlap T (dropColumns (nonMergeCols u) T) (mergeOnCols u))
          "_drop" (dropColumns (nonMergeCols u) T))
        (mergeOnCols u)
        (rightDataCols
          (renSuffix
            (mergeOverlap T (dropColumns (nonMergeCols u) T)
              (mergeOnCols u))
            "_drop" (dropColumns (nonMergeCols u) T)) (mergeOnCols u))
        = T.rows.map (fun row => row
            ++ (rightDataCols
                (renSuffix
                  (mergeOverlap T (dropColumns (nonMergeCols u) T)
                    (mergeOnCols u))
                  "_drop" (dropColumns (nonMergeCols u) T))
                (mergeOnCols u)).map
              (fun c => (c, ((projSelfRow (nonMergeCols u)
                  (mergeOverlap T (dropColumns (nonMergeCols u) T)
                    (mergeOnCols u)) row).lookup c).getD CellVal.none))) := by
      unfold mergedLeftRows
      rw [hrrrows]
      apply flatMap_eq_map_of_singleton
      intro row hrow
      rw [hms row hrow]
      simp
    have hright : mergedRightRows T
        (renSuffix
          (mergeOverlap T (dropColumns (nonMergeCols u) T) (mergeOnCols u))
          "_drop" (dropColumns (nonMergeCols u) T))
        (mergeOnCols u)
        (rightDataCols
          (renSuffix
            (mergeOverlap T (dropColumns (nonMergeCols u) T)
              (mergeOnCols u))
            "_drop" (dropColumns (nonMergeCols u) T)) (mergeOnCols u))
        = [] := by
      unfold mergedRightRows
      rw [hrrrows]
      rw [List.filter_eq_nil_iff.mpr ?_]
      · rfl
      intro rrow hrrow
      obtain ⟨row, hrow, rfl⟩ := List.mem_map.mp hrrow
      intro hall
      have hthis := List.all_eq_true.mp hall row hrow
      rw [hkeyproj row] at hthis
      simp at hthis
    rw [hleft, hright, List.append_nil, List.map_map]
    refine Eq.trans (List.map_congr_left ?_) (List.map_id T.rows)
    intro row hrow
    show (row ++ (rightDataCols
        (renSuffix
          (mergeOverlap T (dropColumns (nonMergeCols u) T) (mergeOnCols u))
          "_drop" (dropColumns (nonMergeCols u) T)) (mergeOnCols u)).map
        (fun c => (c, ((projSelfRow (nonMergeCols u)
            (mergeOverlap T (dropColumns (nonMergeCols u) T)
              (mergeOnCols u)) row).lookup c).getD CellVal.none))).filter
        (fun p => !(endsWithStr p.1 "_drop"))
      = row
    rw [List.filter_append]
    rw [List.filter_eq_self.mpr ?_]
    · rw [List.filter_eq_nil_iff.mpr ?_]
      · exact List.append_nil row
      intro q hq
      obtain ⟨c, hc, hqeq⟩ := List.mem_map.mp hq
      rw [← hqeq]
      simp [rightDataCols_self_all_drop u T c hc]
    · intro p hp
      have hpc : p.1 ∈ T.cols := by
        rw [← hw row hrow]
        exact List.mem_map.mpr ⟨p, hp, rfl⟩
      simp [hnd p.1 hpc]

/-- A similarity result row used in the merge counterexample. -/
def dupRow : DFRow :=
  [("Term_1", CellVal.str "Heart"), ("CUI_1", CellVal.str "C0018787"),
   ("Term_2", CellVal.str "Lung"), ("CUI_2", CellVal.str "C0024109"),
   ("Similarity (lch)", CellVal.str "0.8")]

/-- A single-operation result table whose identity key occurs twice. -/
def dupTable : DF :=
  ⟨["Term_1", "CUI_1", "Term_2", "CUI_2", "Similarity (lch)"],
   [dupRow, dupRow]⟩

/-- C8 counterexample: merging a single-operation result table with
itself through the merger's outer join is not the identity when the
identity-key tuple of a row is duplicated — the join then produces a
cross product of the matching rows (four rows from two). -/
theorem merge_self_not_idempotent_cex :
    merge_results [("similarity", dupTable), ("shortest_path", dupTable)]
        true ≠ dupTable := by
  decide

/-- C8 as amended: merging a single-operation result table with itself
by the merger's outer join on the identity columns returns the table
unchanged — no duplicate rows and no duplicate columns — for every
table whose rows are aligned with its column list, whose column names
do not end in the merger's `_drop` suffix, and whose identity-key
tuples are pairwise distinct (the duplicate-key case fails, see the
counterexample). -/
theorem merge_self_idempotent_amended (u : Bool) (T : DF)
    (hw : ∀ row ∈ T.rows, row.map Prod.fst = T.cols)
    (hnd : ∀ c ∈ T.cols, endsWithStr c "_drop" = false)
    (hkeys : (T.rows.map (rowKey (mergeOnCols u))).Nodup) :
    merge_results [("similarity", T), ("shortest_path", T)] u = T := by
  have h : merge_results [("similarity", T), ("shortest_path", T)] u
      = mergeStep u T T := rfl
  rw [h]
  exact mergeStep_self_eq u T hw hnd hkeys

/-- A two-row similarity table with distinct identity keys. -/
def okTable : DF :=
  ⟨["Term_1", "CUI_1", "Term_2", "CUI_2", "Similarity (lch)"],
   [[("Term_1", CellVal.str "Heart"), ("CUI_1", CellVal.str "C0018787"),
     ("Term_2", CellVal.str "Lung"), ("CUI_2", CellVal.str "C0024109"),
     ("Similarity (lch)", CellVal.str "0.8")],
    [("Term_1", CellVal.str "Kidney"), ("CUI_1", CellVal.str "C0022646"),
     ("Term_2", CellVal.str "Lung"), ("CUI_2", CellVal.str "C0024109"),
     ("Similarity (lch)", CellVal.str "0.5")]]⟩

/-- Witness for the amended C8 at a concrete two-row table. -/
theorem merge_self_idempotent_amended_witness :
    ((∀ row ∈ okTable.rows, row.map Prod.fst = okTable.cols) ∧
      (∀ c ∈ okTable.cols, endsWithStr c "_drop" = false) ∧
      (okTable.rows.map (rowKey (mergeOnCols true))).Nodup) ∧
    merge_results [("similarity", okTable), ("shortest_path", okTable)]
        true = okTable :=
  ⟨⟨by decide, by decide, by decide⟩,
    merge_self_idempotent_amended true okTable (by decide) (by decide)
      (by decide)⟩
